import Mathlib

/-!
Verification of the Creseada RFQ automation presentation layer.

The repository under analysis is a Next.js frontend; its pure logic
(`src/frontend/src/lib/utils.ts`, `src/frontend/src/lib/api.ts`, the
`SLABadge`, `RFQTable`, `RateTable`, `UploadForm` and `DashboardPage`
components) is embedded here as Lean functions.  The backend engine
(SLA evaluator, rate catalog/matcher, lifecycle state machine) is not
part of the repository's visible sources; where a property depends on
it, a definition carrying a doc comment starting `Modelled from the
spec:` reproduces the behaviour the specification assigns to it.

Timestamps are epoch milliseconds as produced by JavaScript
`Date.getTime()`, modelled as rationals so that the fractional-hour and
fractional-day arithmetic of the source is exact.
-/

namespace Creseada

/-- Epoch milliseconds, the value of JavaScript `Date.getTime()`. -/
abbrev Millis := ℚ

/-- Hours remaining before a deadline, as computed in
`SLABadge.tsx` line 21: `(deadlineDate.getTime() - now.getTime()) / (1000 * 60 * 60)`. -/
def hoursRemaining (now deadline : Millis) : ℚ :=
  (deadline - now) / (1000 * 60 * 60)

/-- The five visually distinct renderings of the `SLABadge` component:
no-SLA text, red "Breached", orange "h left" (alert triangle), yellow
"h left" (clock), green "On track". -/
inductive SLABadgeKind where
  | noSLA
  | breachedBadge
  | approachingBadge
  | warningBadge
  | onTrackBadge
  deriving DecidableEq, Repr

/-- Embedding of the `SLABadge` component (`SLABadge.tsx` lines 12-76):
no deadline renders the "No SLA" text; otherwise the badge is chosen by
the breached flag and `hoursRemaining` against the hardcoded cutoffs 0,
2 and 8. -/
def slaBadge (now : Millis) (deadline : Option Millis) (breached : Bool) : SLABadgeKind :=
  match deadline with
  | none => .noSLA
  | some d =>
    let hr := hoursRemaining now d
    if breached = true ∨ hr < 0 then .breachedBadge
    else if hr ≤ 2 then .approachingBadge
    else if hr ≤ 8 then .warningBadge
    else .onTrackBadge

/-- The three-way SLA classification of the specification (§4.3). -/
inductive SLAClass where
  | breached
  | approaching
  | onTrack
  deriving DecidableEq, Repr

/-- Modelled from the spec: the SLA Evaluator (§4.3) is backend code absent
from this repository's sources; only its caller `getSLAAlerts` (api.ts
lines 169-178, default `approaching_hours = 2`) is visible.  Per the spec:
"breached if hours_remaining < 0 or explicit breached flag set; approaching
if 0 ≤ hours_remaining ≤ configurable threshold (default 2h); on_track
otherwise." -/
def slaClassify (threshold : ℚ) (hr : ℚ) (breachedFlag : Bool) : SLAClass :=
  if breachedFlag = true ∨ hr < 0 then .breached
  else if hr ≤ threshold then .approaching
  else .onTrack

/-- Default `approaching_hours` threshold sent by `getSLAAlerts`
(api.ts line 171). -/
def defaultApproachingHours : ℚ := 2

/-- Claim C1: for every open RFQ with a deadline, the SLA classification is
breached iff hours_remaining < 0 or the breached flag is set; approaching
iff 0 ≤ hours_remaining ≤ the configurable threshold and not breached;
on_track exactly otherwise.  At the default threshold 2 the `SLABadge`
component agrees: its red badge is the breached class, its orange badge
the approaching class, and its yellow/green badges together the on_track
class. -/
theorem sla_classification_correct :
    ∀ (threshold hr : ℚ) (b : Bool),
      (slaClassify threshold hr b = .breached ↔ (hr < 0 ∨ b = true)) ∧
      (slaClassify threshold hr b = .approaching ↔
        (b = false ∧ 0 ≤ hr ∧ hr ≤ threshold)) ∧
      (slaClassify threshold hr b = .onTrack ↔
        (b = false ∧ ¬ hr < 0 ∧ threshold < hr)) ∧
      (∀ now d : Millis, hr = hoursRemaining now d →
        (slaBadge now (some d) b = .breachedBadge ↔
          slaClassify defaultApproachingHours hr b = .breached) ∧
        (slaBadge now (some d) b = .approachingBadge ↔
          slaClassify defaultApproachingHours hr b = .approaching) ∧
        ((slaBadge now (some d) b = .warningBadge ∨
          slaBadge now (some d) b = .onTrackBadge) ↔
          slaClassify defaultApproachingHours hr b = .onTrack)) := by
  intro threshold hr b
  have key : ∀ t : ℚ,
      (slaClassify t hr b = .breached ↔ (hr < 0 ∨ b = true)) ∧
      (slaClassify t hr b = .approaching ↔ (b = false ∧ 0 ≤ hr ∧ hr ≤ t)) ∧
      (slaClassify t hr b = .onTrack ↔ (b = false ∧ ¬ hr < 0 ∧ t < hr)) := by
    intro t
    unfold slaClassify
    split_ifs with h1 h2
    · refine ⟨iff_of_true rfl ?_, iff_of_false (by simp) ?_, iff_of_false (by simp) ?_⟩
      · rcases h1 with h1 | h1
        · exact Or.inr h1
        · exact Or.inl h1
      · rintro ⟨hb, h0, -⟩
        rcases h1 with h1 | h1
        · simp [hb] at h1
        · exact absurd h0 (not_le.mpr h1)
      · rintro ⟨hb, h0, -⟩
        rcases h1 with h1 | h1
        · simp [hb] at h1
        · exact h0 h1
    · push_neg at h1
      obtain ⟨hb, h0⟩ := h1
      have hb' : b = false := by cases b <;> simp_all
      refine ⟨iff_of_false (by simp) ?_, iff_of_true rfl ⟨hb', h0, h2⟩,
        iff_of_false (by simp) ?_⟩
      · rintro (h | h)
        · exact absurd h (not_lt.mpr h0)
        · exact hb h
      · rintro ⟨-, -, hlt⟩
        exact absurd h2 (not_le.mpr hlt)
    · push_neg at h1
      obtain ⟨hb, h0⟩ := h1
      have hb' : b = false := by cases b <;> simp_all
      have ht : t < hr := not_le.mp h2
      refine ⟨iff_of_false (by simp) ?_, iff_of_false (by simp) ?_,
        iff_of_true rfl ⟨hb', not_lt.mpr h0, ht⟩⟩
      · rintro (h | h)
        · exact absurd h (not_lt.mpr h0)
        · exact hb h
      · rintro ⟨-, -, hle⟩
        exact absurd hle h2
  obtain ⟨k1, k2, k3⟩ := key threshold
  refine ⟨k1, k2, k3, ?_⟩
  intro now d hhr
  subst hhr
  simp only [slaBadge, slaClassify, defaultApproachingHours]
  split_ifs <;> simp_all

/-- Witness for `sla_classification_correct` at threshold 2,
hours_remaining 1, flag clear: the classification is approaching and the
badge is the orange approaching badge. -/
theorem sla_classification_correct_witness :
    slaClassify 2 1 false = .approaching ∧
    slaBadge 0 (some 3600000) false = .approachingBadge := by
  have h := sla_classification_correct 2 1 false
  refine ⟨(h.2.1).mpr (by norm_num), ?_⟩
  have h4 := (h.2.2.2 0 3600000 (by norm_num [hoursRemaining])).2.1
  exact h4.mpr ((h.2.1).mpr (by norm_num))

/-- The `RFQListItem` record of `api.ts` lines 27-44.  Timestamp-valued
fields hold the parsed epoch-millisecond value of the ISO string. -/
structure RFQListItem where
  id : String
  rfq_reference : Option String
  customer_name : Option String
  subject : Option String
  status : String
  urgency : String
  shipping_mode : Option String
  origin : Option String
  destination : Option String
  is_dangerous_goods : Bool
  odoo_quotation_number : Option String
  assigned_agent : Option String
  sla_deadline_at : Option Millis
  sla_breached : Bool
  received_at : Option Millis
  created_at : Option Millis
  deriving DecidableEq, Repr

/-- The SLA cell of the RFQ table (`RFQTable` lines 303-308): the badge is
computed from the row's `sla_deadline_at` and `sla_breached` fields only. -/
def rfqTableBadge (now : Millis) (r : RFQListItem) : SLABadgeKind :=
  slaBadge now r.sla_deadline_at r.sla_breached

/-- Terminal statuses per the spec glossary: sent and cancelled. -/
def isTerminal (status : String) : Bool :=
  status = "sent" || status = "cancelled"

/-- Modelled from the spec: the evaluator-side breached condition of the
data-model invariant (§3), backend code absent from this repository's
sources: "breached ⇔ now > deadline while status is not terminal". -/
def specBreached (now deadline : Millis) (status : String) : Bool :=
  decide (deadline < now) && ! isTerminal status

/-- A concrete RFQ row in terminal status sent, breached flag clear,
whose deadline (epoch 0) is in the past at the observation instant used
below. -/
def sentRFQ : RFQListItem :=
  { id := "rfq-1", rfq_reference := none, customer_name := none,
    subject := none, status := "sent", urgency := "STANDARD",
    shipping_mode := none, origin := none, destination := none,
    is_dangerous_goods := false, odoo_quotation_number := none,
    assigned_agent := none, sla_deadline_at := some 0,
    sla_breached := false, received_at := some 0, created_at := some 0 }

/-- Claim C2, counterexample: the claim says an RFQ in a terminal status
is never classified as breached, yet the RFQ table renders the sent RFQ
above — terminal, flag clear — with the red breached badge one hour
after its deadline, because `SLABadge` never looks at the status. -/
theorem sla_badge_terminal_breach_counterexample :
    isTerminal sentRFQ.status = true ∧
    sentRFQ.sla_breached = false ∧
    rfqTableBadge 3600000 sentRFQ = .breachedBadge := by
  refine ⟨rfl, rfl, ?_⟩
  simp only [rfqTableBadge, sentRFQ, slaBadge]
  rw [if_pos]
  right
  norm_num [hoursRemaining]

/-- Claim C2 as amended: the evaluator's breached condition (modelled from
the spec) holds iff now > deadline and the status is not terminal — so it
is never set in a terminal status — but the classification rendered by the
RFQ table depends only on the deadline and the stored breached flag, never
on the status: the badge is breached iff the flag is set or
hours_remaining < 0, even for a terminal RFQ. -/
theorem sla_breached_invariant_and_badge :
    ∀ (now : Millis) (r : RFQListItem) (d : Millis) (s : String),
      (specBreached now d s = true ↔ (d < now ∧ isTerminal s = false)) ∧
      (rfqTableBadge now { r with status := s } = rfqTableBadge now r) ∧
      (r.sla_deadline_at = some d →
        (rfqTableBadge now r = .breachedBadge ↔
          (r.sla_breached = true ∨ hoursRemaining now d < 0))) := by
  intro now r d s
  refine ⟨?_, rfl, ?_⟩
  · simp [specBreached]
  · intro hd
    simp only [rfqTableBadge, hd, slaBadge]
    by_cases h : r.sla_breached = true ∨ hoursRemaining now d < 0
    · rw [if_pos h]
      exact iff_of_true rfl h
    · rw [if_neg h]
      refine iff_of_false ?_ h
      split_ifs <;> simp

/-- Witness for `sla_breached_invariant_and_badge` at the sent RFQ one
hour after its deadline: the badge is breached exactly because
hours_remaining is negative. -/
theorem sla_breached_invariant_and_badge_witness :
    sentRFQ.sla_deadline_at = some 0 ∧
    (rfqTableBadge 3600000 sentRFQ = .breachedBadge ↔
      (sentRFQ.sla_breached = true ∨ hoursRemaining 3600000 0 < 0)) := by
  exact ⟨rfl, (sla_breached_invariant_and_badge 3600000 sentRFQ 0 "sent").2.2 rfl⟩

/-- The `Rate` record of `api.ts` lines 8-25; the validity window bounds
are epoch milliseconds, money amounts are exact rationals.  The `status`
field is the string the backend serialized into the payload. -/
structure Rate where
  id : String
  carrier_name : String
  mode : String
  origin_port : String
  destination_port : String
  currency : String
  rate_per_unit : ℚ
  unit : String
  minimum_charge : Option ℚ
  dg_surcharge_pct : Option ℚ
  valid_from : Millis
  valid_to : Millis
  source : String
  status : String
  notes : Option String
  deriving DecidableEq, Repr

/-- The two rate statuses of the specification (§2, §3). -/
inductive RateStatus where
  | ACTIVE
  | EXPIRED
  deriving DecidableEq, Repr

/-- Modelled from the spec: the Rate Catalog's status computation, backend
code absent from this repository's sources: "status derived from validity
window vs. current time (ACTIVE iff now ∈ window, else EXPIRED)",
recomputed at query time, never stored. -/
def rateStatus (now : Millis) (r : Rate) : RateStatus :=
  if r.valid_from ≤ now ∧ now ≤ r.valid_to then .ACTIVE else .EXPIRED

/-- Embedding of `getDaysUntilExpiry` (`utils.ts` lines 62-67):
`Math.ceil((expiry − now) / (1000*60*60*24))`, the clock reading made
explicit as the first argument. -/
def getDaysUntilExpiry (now validTo : Millis) : ℤ :=
  ⌈(validTo - now) / (1000 * 60 * 60 * 24)⌉

/-- Embedding of `getExpiryColor` (`utils.ts` lines 69-74). -/
def getExpiryColor (daysUntil : ℤ) : String :=
  if daysUntil < 0 then "text-gray-500"
  else if daysUntil ≤ 3 then "text-red-600"
  else if daysUntil ≤ 7 then "text-yellow-600"
  else "text-green-600"

/-- Claim C3: for every rate and query time, the (query-time recomputed)
status is ACTIVE iff valid_from ≤ now ≤ valid_to and EXPIRED otherwise;
being a function of the clock and the window it can never be stale, and it
never disagrees with an expiry freshly derived from valid_to: whenever the
fresh day count is negative the status is EXPIRED. -/
theorem rate_status_from_validity_window :
    ∀ (now : Millis) (r : Rate),
      (rateStatus now r = .ACTIVE ↔ (r.valid_from ≤ now ∧ now ≤ r.valid_to)) ∧
      (rateStatus now r = .EXPIRED ↔ ¬ (r.valid_from ≤ now ∧ now ≤ r.valid_to)) ∧
      (0 ≤ getDaysUntilExpiry now r.valid_to ∨ rateStatus now r = .EXPIRED) := by
  intro now r
  refine ⟨?_, ?_, ?_⟩
  · unfold rateStatus
    split_ifs with h
    · exact iff_of_true rfl h
    · exact iff_of_false (by simp) h
  · unfold rateStatus
    split_ifs with h
    · exact iff_of_false (by simp) (not_not_intro h)
    · exact iff_of_true rfl h
  · unfold rateStatus
    split_ifs with h
    · left
      refine Int.ceil_nonneg (div_nonneg ?_ (by norm_num))
      linarith [h.2]
    · right
      rfl

/-- The audit-log record of `api.ts` lines 68-75 (the numeric row id is
assigned by storage and omitted from the lifecycle model). -/
structure AuditLogEntry where
  rfq_id : String
  event : String
  old_value : Option String
  new_value : Option String
  timestamp : Millis
  deriving DecidableEq, Repr

/-- The error taxonomy of the specification (§7). -/
inductive ApiError where
  | ValidationError
  | NotFound
  | InvalidStateTransition
  | Timeout
  | Conflict
  deriving DecidableEq, Repr

/-- The mutable RFQ state the lifecycle machine operates on (the fields of
`RFQDetail` in `api.ts` that the approve transition reads or writes,
plus those it must leave untouched). -/
structure RFQ where
  id : String
  status : String
  urgency : String
  rate_id : Option String
  rate_amount : Option ℚ
  estimated_cost : Option ℚ
  odoo_quotation_number : Option String
  sla_deadline_at : Option Millis
  sla_breached : Bool
  received_at : Option Millis
  quote_drafted_at : Option Millis
  quote_sent_at : Option Millis
  deriving DecidableEq, Repr

/-- Modelled from the spec: the lifecycle machine's approve operation
(§4.4), backend code absent from this repository's sources; only its
caller `approveRFQ` (api.ts lines 223-227) is visible.  Per the spec:
"quote_review → sent: approve operation; requires status == quote_review,
else fails with InvalidStateTransition; stamps quote_sent_at and (if
present) the external quotation reference", appending exactly one audit
entry capturing old/new status; a rejected operation leaves state and
audit log unchanged (append-then-commit), which the `Except` error arm
models by returning no state at all. -/
def approve (now : Millis) (quotationRef : Option String) (rfq : RFQ)
    (audit : List AuditLogEntry) : Except ApiError (RFQ × List AuditLogEntry) :=
  if rfq.status = "quote_review" then
    .ok ({ rfq with
             status := "sent",
             quote_sent_at := some now,
             odoo_quotation_number :=
               match quotationRef with
               | some q => some q
               | none => rfq.odoo_quotation_number },
         audit ++ [{ rfq_id := rfq.id, event := "status_change",
                     old_value := some rfq.status, new_value := some "sent",
                     timestamp := now }])
  else
    .error .InvalidStateTransition

/-- Claim C4: approve succeeds only from quote_review — from any other
status it fails with InvalidStateTransition, returning no new state and
hence no audit entry and an unchanged RFQ — and on success it stamps
quote_sent_at, stamps the external quotation reference when present,
moves the status to sent, appends exactly one audit entry, and touches
nothing else. -/
theorem approve_requires_quote_review :
    ∀ (now : Millis) (qref : Option String) (rfq : RFQ)
      (audit : List AuditLogEntry),
      (approve now qref rfq audit = .error .InvalidStateTransition ↔
        rfq.status ≠ "quote_review") ∧
      (∀ res, approve now qref rfq audit = .ok res →
        rfq.status = "quote_review") ∧
      (rfq.status = "quote_review" →
        approve now qref rfq audit =
          .ok ({ rfq with
                   status := "sent",
                   quote_sent_at := some now,
                   odoo_quotation_number :=
                     match qref with
                     | some q => some q
                     | none => rfq.odoo_quotation_number },
               audit ++ [{ rfq_id := rfq.id, event := "status_change",
                           old_value := some "quote_review",
                           new_value := some "sent",
                           timestamp := now }])) := by
  intro now qref rfq audit
  unfold approve
  split_ifs with h
  · refine ⟨iff_of_false (by simp) (not_not_intro h), ?_, ?_⟩
    · intro res _
      exact h
    · intro _
      rw [h]
  · refine ⟨iff_of_true rfl h, ?_, fun hq => absurd hq h⟩
    intro res hres
    exact absurd hres (by simp)

/-- A concrete RFQ sitting in quote_review with an assigned rate. -/
def reviewRFQ : RFQ :=
  { id := "rfq-2", status := "quote_review", urgency := "STANDARD",
    rate_id := some "rate-1", rate_amount := some 50,
    estimated_cost := some 50000, odoo_quotation_number := none,
    sla_deadline_at := none, sla_breached := false, received_at := some 0,
    quote_drafted_at := some 0, quote_sent_at := none }

/-- The same RFQ still in received status. -/
def receivedRFQ : RFQ :=
  { reviewRFQ with status := "received", rate_id := none,
                   rate_amount := none, estimated_cost := none,
                   quote_drafted_at := none }

/-- Witness for `approve_requires_quote_review`: a concrete RFQ in
quote_review is approved (status sent, quote_sent_at stamped, reference
stamped, one audit entry appended), and the same RFQ in received status
fails with InvalidStateTransition. -/
theorem approve_requires_quote_review_witness :
    approve 7 (some "SO123") reviewRFQ [] =
      .ok ({ reviewRFQ with status := "sent", quote_sent_at := some 7,
                            odoo_quotation_number := some "SO123" },
           [{ rfq_id := "rfq-2", event := "status_change",
              old_value := some "quote_review", new_value := some "sent",
              timestamp := 7 }]) ∧
    approve 7 none receivedRFQ [] = .error .InvalidStateTransition := by
  constructor
  · exact (approve_requires_quote_review 7 (some "SO123") _ []).2.2 rfl
  · exact (approve_requires_quote_review 7 none _ []).1.mpr (by decide)

/-- The rate-lookup request of `api.ts` lines 109-115. -/
structure RateLookupRequest where
  origin : String
  destination : String
  mode : String
  weight_kg : Option ℚ
  is_dangerous_goods : Option Bool
  deriving DecidableEq, Repr

/-- The rate-lookup response of `api.ts` lines 117-124. -/
structure RateLookupResponse where
  found : Bool
  match_type : String
  rate : Option Rate
  estimated_cost : Option ℚ
  confidence : ℚ
  message : String
  deriving DecidableEq, Repr

/-- Modelled from the spec: matcher tier 1 (§4.2), "exact
origin+destination+mode match". -/
def tier1Match (req : RateLookupRequest) (r : Rate) : Bool :=
  decide (r.origin_port = req.origin) &&
    decide (r.destination_port = req.destination) &&
    decide (r.mode = req.mode)

/-- Modelled from the spec: matcher tier 2 (§4.2), "origin+mode match with
destination prefix/partial match (e.g., matching port-code prefix)",
modelled as a port-code prefix in either direction. -/
def tier2Match (req : RateLookupRequest) (r : Rate) : Bool :=
  decide (r.origin_port = req.origin) && decide (r.mode = req.mode) &&
    (r.destination_port.startsWith req.destination ||
      req.destination.startsWith r.destination_port)

/-- Modelled from the spec: matcher tier 3 (§4.2), "mode-only match within
same broad lane"; the spec never defines a broad lane, so the tier is
modelled as mode equality alone. -/
def tier3Match (req : RateLookupRequest) (r : Rate) : Bool :=
  decide (r.mode = req.mode)

/-- Modelled from the spec: the tie-break order within a tier (§4.2),
"lowest rate_per_unit (cheapest-first), then earliest valid_to". -/
def preferredOver (a b : Rate) : Bool :=
  decide (a.rate_per_unit < b.rate_per_unit) ||
    (decide (a.rate_per_unit = b.rate_per_unit) && decide (a.valid_to < b.valid_to))

/-- Best candidate of a tier under `preferredOver` (earlier catalog entry
wins exact ties). -/
def pickBest (l : List Rate) : Option Rate :=
  l.foldl
    (fun acc r =>
      match acc with
      | none => some r
      | some b => if preferredOver r b then some r else some b)
    none

/-- Modelled from the spec: the estimated-cost rule (§4.2).  With a weight
and a dangerous-goods surcharge that applies, cost is
rate_per_unit × weight × (1 + pct/100) floored at the minimum charge when
present; otherwise max(rate_per_unit × weight, minimum_charge ?? 0); no
weight means no estimate. -/
def estimatedCost (weight : Option ℚ) (isDG : Option Bool) (r : Rate) : Option ℚ :=
  match weight with
  | none => none
  | some w =>
    match isDG, r.dg_surcharge_pct with
    | some true, some pct =>
      let c := r.rate_per_unit * w * (1 + pct / 100)
      some (match r.minimum_charge with
            | some m => max c m
            | none => c)
    | _, _ => some (max (r.rate_per_unit * w) (r.minimum_charge.getD 0))

/-- Modelled from the spec: the Rate Matcher's lookup (§4.2), backend code
absent from this repository's sources; only its caller `lookupRate` in
`api.ts` lines 295-302 is visible.  The catalog is filtered to ACTIVE
rates, the tiers are tried strongest first with confidence 1.0 / 0.6 /
0.3, and no candidate yields found = false with confidence 0. -/
def rateLookup (now : Millis) (catalog : List Rate) (req : RateLookupRequest) :
    RateLookupResponse :=
  let active := catalog.filter (fun r => decide (rateStatus now r = RateStatus.ACTIVE))
  match pickBest (active.filter (tier1Match req)) with
  | some r =>
    { found := true, match_type := "exact", rate := some r,
      estimated_cost := estimatedCost req.weight_kg req.is_dangerous_goods r,
      confidence := 1, message := "Exact route match" }
  | none =>
    match pickBest (active.filter (tier2Match req)) with
    | some r =>
      { found := true, match_type := "partial", rate := some r,
        estimated_cost := estimatedCost req.weight_kg req.is_dangerous_goods r,
        confidence := 3 / 5, message := "Partial destination match" }
    | none =>
      match pickBest (active.filter (tier3Match req)) with
      | some r =>
        { found := true, match_type := "mode_only", rate := some r,
          estimated_cost := estimatedCost req.weight_kg req.is_dangerous_goods r,
          confidence := 3 / 10, message := "Mode-only match" }
      | none =>
        { found := false, match_type := "none", rate := none,
          estimated_cost := none, confidence := 0,
          message := "No matching rate found" }

/-- The catalog rate of the spec's §8 lookup property: an ACTIVE SIN→PHC
SEA rate of 50 per unit with no surcharge and no minimum charge. -/
def sinPhcRate : Rate :=
  { id := "rate-sin-phc", carrier_name := "Evergreen", mode := "SEA",
    origin_port := "SIN", destination_port := "PHC", currency := "USD",
    rate_per_unit := 50, unit := "KG", minimum_charge := none,
    dg_surcharge_pct := none, valid_from := 0, valid_to := 1000000000,
    source := "MANUAL", status := "ACTIVE", notes := none }

/-- The lookup request of the spec's §8 property: SIN → PHC by SEA at
1000 kg. -/
def sinPhcRequest : RateLookupRequest :=
  { origin := "SIN", destination := "PHC", mode := "SEA",
    weight_kg := some 1000, is_dangerous_goods := none }

/-- Claim C5: against a catalog holding exactly the SIN→PHC SEA rate of
50 per unit with no surcharge, the lookup for origin SIN, destination
PHC, mode SEA, weight 1000 kg returns found = true, match_type exact,
confidence 1.0 and estimated_cost 50000. -/
theorem lookup_exact_match_sin_phc :
    (rateLookup 500 [sinPhcRate] sinPhcRequest).found = true ∧
    (rateLookup 500 [sinPhcRate] sinPhcRequest).match_type = "exact" ∧
    (rateLookup 500 [sinPhcRate] sinPhcRequest).confidence = 1 ∧
    (rateLookup 500 [sinPhcRate] sinPhcRequest).estimated_cost = some 50000 := by
  refine ⟨rfl, rfl, rfl, ?_⟩
  show estimatedCost (some 1000) none sinPhcRate = some 50000
  simp [estimatedCost, sinPhcRate]
  norm_num

/-- A single optional query parameter as built by the JS truthiness guard
`if (v) params.set(k, v)` in `listRFQs` and `listRates`: an undefined or
empty-string value adds nothing. -/
def queryParam (k : String) (v : Option String) : List (String × String) :=
  match v with
  | none => []
  | some s => if s = "" then [] else [(k, s)]

/-- Query parameters sent by `listRFQs` (api.ts lines 181-190), in the
order the source sets them. -/
def rfqQueryParams (status urgency : Option String) : List (String × String) :=
  queryParam "status" status ++ queryParam "urgency" urgency

/-- Query parameters sent by `listRates` (api.ts lines 259-272), in the
order the source sets them. -/
def rateQueryParams (mode origin destination status : Option String) :
    List (String × String) :=
  queryParam "mode" mode ++ queryParam "origin" origin ++
    queryParam "destination" destination ++ queryParam "status" status

/-- Modelled from the spec: a supplied list filter constrains its field by
equality, an absent one imposes no constraint (§6: "all list endpoints
accept optional filters combined with logical AND"). -/
def matchesOpt (f : Option String) (v : String) : Bool :=
  match f with
  | none => true
  | some s => decide (v = s)

/-- The status string the backend serializes, computed at query time from
the validity window. -/
def rateStatusString (now : Millis) (r : Rate) : String :=
  match rateStatus now r with
  | .ACTIVE => "ACTIVE"
  | .EXPIRED => "EXPIRED"

/-- Modelled from the spec: GET /rfqs?status&urgency, backend code absent
from this repository's sources — RFQs matching all supplied filters. -/
def listRFQsBackend (rfqs : List RFQListItem) (status urgency : Option String) :
    List RFQListItem :=
  rfqs.filter (fun r => matchesOpt status r.status && matchesOpt urgency r.urgency)

/-- Modelled from the spec: GET /rates?mode&origin&destination&status,
backend code absent from this repository's sources — rates matching all
supplied filters, status computed at query time (§4.1). -/
def listRatesBackend (now : Millis) (rates : List Rate)
    (mode origin destination status : Option String) : List Rate :=
  rates.filter (fun r =>
    matchesOpt mode r.mode && matchesOpt origin r.origin_port &&
      matchesOpt destination r.destination_port &&
      matchesOpt status (rateStatusString now r))

/-- A supplied filter matches exactly when every value it carries equals
the field. -/
theorem matchesOpt_iff (f : Option String) (v : String) :
    matchesOpt f v = true ↔ ∀ s, f = some s → v = s := by
  cases f <;> simp [matchesOpt]

/-- Membership in a truthiness-guarded query parameter. -/
theorem queryParam_mem (k k' v : String) (f : Option String) :
    ((k', v) ∈ queryParam k f) ↔ (k' = k ∧ f = some v ∧ v ≠ "") := by
  cases f with
  | none => simp [queryParam]
  | some s =>
    by_cases hs : s = ""
    · subst hs
      simp [queryParam]
      intro _ hv
      exact hv.symm
    · simp [queryParam, hs]
      intro _
      constructor
      · intro hv
        subst hv
        exact ⟨rfl, hs⟩
      · rintro ⟨hv, -⟩
        exact hv.symm

/-- Claim C6: the list clients send exactly the supplied filters — a key
value pair is in the query string iff the caller supplied that filter
non-empty — and the (spec-modelled) backends return exactly the elements
satisfying every supplied filter, combined conjunctively; an omitted
filter constrains nothing. -/
theorem list_filters_exact_and_conjunctive :
    ∀ (status urgency mode origin destination st : Option String)
      (k v : String) (rfqs : List RFQListItem) (rates : List Rate)
      (now : Millis) (q : RFQListItem) (r : Rate),
      ((k, v) ∈ rfqQueryParams status urgency ↔
        ((k = "status" ∧ status = some v ∧ v ≠ "") ∨
         (k = "urgency" ∧ urgency = some v ∧ v ≠ ""))) ∧
      ((k, v) ∈ rateQueryParams mode origin destination st ↔
        ((k = "mode" ∧ mode = some v ∧ v ≠ "") ∨
         (k = "origin" ∧ origin = some v ∧ v ≠ "") ∨
         (k = "destination" ∧ destination = some v ∧ v ≠ "") ∨
         (k = "status" ∧ st = some v ∧ v ≠ ""))) ∧
      (q ∈ listRFQsBackend rfqs status urgency ↔
        (q ∈ rfqs ∧ (∀ s, status = some s → q.status = s) ∧
          (∀ s, urgency = some s → q.urgency = s))) ∧
      (r ∈ listRatesBackend now rates mode origin destination st ↔
        (r ∈ rates ∧ (∀ s, mode = some s → r.mode = s) ∧
          (∀ s, origin = some s → r.origin_port = s) ∧
          (∀ s, destination = some s → r.destination_port = s) ∧
          (∀ s, st = some s → rateStatusString now r = s))) := by
  intro status urgency mode origin destination st k v rfqs rates now q r
  refine ⟨?_, ?_, ?_, ?_⟩
  · simp [rfqQueryParams, List.mem_append, queryParam_mem]
  · simp [rateQueryParams, List.mem_append, queryParam_mem, or_assoc]
  · simp [listRFQsBackend, List.mem_filter, Bool.and_eq_true, matchesOpt_iff,
      and_assoc]
  · simp [listRatesBackend, List.mem_filter, Bool.and_eq_true, matchesOpt_iff,
      and_assoc]

/-- Witness for `list_filters_exact_and_conjunctive` at concrete filters:
supplying status "sent" and no urgency sends exactly the status pair, and
an RFQ of status sent passes the backend filter. -/
theorem list_filters_exact_and_conjunctive_witness :
    ("status", "sent") ∈ rfqQueryParams (some "sent") none ∧
    ({ sentRFQ with status := "sent" } ∈
      listRFQsBackend [sentRFQ] (some "sent") none) := by
  have h := list_filters_exact_and_conjunctive (some "sent") none none none
    none none "status" "sent" [sentRFQ] [] 0 sentRFQ sinPhcRate
  constructor
  · exact h.1.mpr (Or.inl ⟨rfl, rfl, by simp⟩)
  · have h3 := (list_filters_exact_and_conjunctive (some "sent") none none none
      none none "status" "sent" [sentRFQ] [] 0 sentRFQ sinPhcRate).2.2.1
    refine ?_
    have : sentRFQ ∈ listRFQsBackend [sentRFQ] (some "sent") none :=
      h3.mpr ⟨List.mem_singleton_self _, by rintro s hs; cases hs; rfl, by rintro s hs; cases hs⟩
    simpa using this

/-- An HTTP response as the API client observes it: the ok flag, the
numeric status code, the body read as text (what `response.text()` would
yield), and the parsed JSON payload (what `response.json()` would
yield). -/
structure HttpResponse (α : Type) where
  ok : Bool
  status : Nat
  bodyText : String
  json : α

/-- Embedding of `fetchApi` (api.ts lines 144-162): a non-ok response
throws the body text, or "API error: {status}" when the body is empty
(JS `error || fallback`); an ok response returns the parsed JSON. -/
def fetchApi {α : Type} (resp : HttpResponse α) : Except String α :=
  if resp.ok then .ok resp.json
  else .error (if resp.bodyText = ""
               then "API error: " ++ toString resp.status
               else resp.bodyText)

/-- Embedding of the response handling of `uploadRFQ` (api.ts lines
196-211), identical to `fetchApi` except for the fallback prefix
"Upload failed: ". -/
def uploadRFQResult {α : Type} (resp : HttpResponse α) : Except String α :=
  if resp.ok then .ok resp.json
  else .error (if resp.bodyText = ""
               then "Upload failed: " ++ toString resp.status
               else resp.bodyText)

/-- Claim C7: no error is silently swallowed at the API boundary — for
every non-OK response both `fetchApi` and `uploadRFQ` produce an error
carrying the body text, or the status code when the body is empty, and a
normal result is returned only for an OK response. -/
theorem api_errors_never_swallowed :
    ∀ (α : Type) (resp : HttpResponse α),
      (resp.ok = false →
        fetchApi resp = .error (if resp.bodyText = ""
                                then "API error: " ++ toString resp.status
                                else resp.bodyText) ∧
        uploadRFQResult resp = .error (if resp.bodyText = ""
                                       then "Upload failed: " ++ toString resp.status
                                       else resp.bodyText)) ∧
      (∀ x, fetchApi resp = .ok x → resp.ok = true) ∧
      (∀ x, uploadRFQResult resp = .ok x → resp.ok = true) := by
  intro α resp
  refine ⟨?_, ?_, ?_⟩
  · intro hok
    unfold fetchApi uploadRFQResult
    rw [hok]
    simp
  · intro x hx
    by_contra hok
    replace hok : resp.ok = false := by
      cases h : resp.ok
      · rfl
      · exact absurd h hok
    unfold fetchApi at hx
    rw [hok] at hx
    simp at hx
  · intro x hx
    by_contra hok
    replace hok : resp.ok = false := by
      cases h : resp.ok
      · rfl
      · exact absurd h hok
    unfold uploadRFQResult at hx
    rw [hok] at hx
    simp at hx

/-- Witness for `api_errors_never_swallowed` at a concrete 500 response
with an empty body: both clients surface the status-code message. -/
theorem api_errors_never_swallowed_witness :
    fetchApi { ok := false, status := 500, bodyText := "", json := (0 : Nat) } =
      .error "API error: 500" ∧
    uploadRFQResult { ok := false, status := 500, bodyText := "", json := (0 : Nat) } =
      .error "Upload failed: 500" := by
  have h := (api_errors_never_swallowed Nat
    { ok := false, status := 500, bodyText := "", json := 0 }).1 rfl
  exact ⟨h.1, h.2⟩

/-- The HTTP methods the API client uses. -/
inductive HttpMethod where
  | GET
  | POST
  | PATCH
  deriving DecidableEq, Repr

/-- A request the client issues: method plus path with query string.
`fetchApi` sends GET unless the call site passes a method (api.ts line
148: options spread into `fetch`). -/
structure ApiRequest where
  method : HttpMethod
  path : String
  deriving DecidableEq, Repr

/-- Rendering of a `URLSearchParams` list appended after a `?`, empty
when no parameter was set (the `params.toString() ? ... : ""` guard of
the source). -/
def renderQuery (ps : List (String × String)) : String :=
  match ps with
  | [] => ""
  | _ => "?" ++ String.intercalate "&" (ps.map (fun kv => kv.1 ++ "=" ++ kv.2))

/-- The request issued by `getDashboardOverview` (api.ts lines 165-167). -/
def getDashboardOverviewRequest : ApiRequest :=
  { method := .GET, path := "/api/dashboard/overview" }

/-- The request issued by `getSLAAlerts` (api.ts lines 169-178); both
parameters are always set. -/
def getSLAAlertsRequest (includeBreached : Bool) (approachingHours : Nat) :
    ApiRequest :=
  { method := .GET,
    path := "/api/dashboard/sla-alerts?include_breached=" ++
      (if includeBreached then "true" else "false") ++
      "&approaching_hours=" ++ toString approachingHours }

/-- The request issued by `listRates` (api.ts lines 259-272). -/
def listRatesRequest (mode origin destination status : Option String) :
    ApiRequest :=
  { method := .GET,
    path := "/api/rates" ++ renderQuery (rateQueryParams mode origin destination status) }

/-- The three requests `DashboardPage` issues on load (part_003 lines
31-53): overview, SLA alerts with the client defaults, and the ACTIVE
rates list. -/
def dashboardRequests : List ApiRequest :=
  [getDashboardOverviewRequest,
   getSLAAlertsRequest true 2,
   listRatesRequest none none none (some "ACTIVE")]

/-- The dashboard's expiring-rates view (part_003 lines 41-45): the
fetched rates filtered to 0 ≤ days-until-expiry ≤ 7. -/
def dashboardExpiring (now : Millis) (rates : List Rate) : List Rate :=
  rates.filter (fun r =>
    decide (getDaysUntilExpiry now r.valid_to ≤ 7) &&
      decide (0 ≤ getDaysUntilExpiry now r.valid_to))

/-- Claim C8: producing the dashboard views is read-only — every request
the dashboard page issues is a GET, and the expiring-rates view is a pure
selection from the fetched list (a sublist: it creates and mutates
nothing). -/
theorem dashboard_is_read_only :
    dashboardRequests.map ApiRequest.method =
      [HttpMethod.GET, HttpMethod.GET, HttpMethod.GET] ∧
    ∀ (now : Millis) (rates : List Rate),
      (dashboardExpiring now rates).Sublist rates := by
  refine ⟨rfl, ?_⟩
  intro now rates
  exact List.filter_sublist rates


/-- The character-level suffix test: `strEndsWith s post` is the
`s.endsWith(post)` of the source expressed over the strings' character
lists (equivalent on the valid UTF-8 strings JavaScript handles). -/
def strEndsWith (s post : String) : Bool :=
  List.isSuffixOf post.data s.data

/-- The file metadata the upload form inspects; only the name drives the
logic (the component additionally displays the size). -/
structure FileMeta where
  name : String
  deriving DecidableEq, Repr

/-- The `UploadForm` component state (part_002 lines 10-13): the selected
file, the error message, and the uploading flag. -/
structure UploadFormState where
  file : Option FileMeta
  error : Option String
  uploading : Bool
  deriving DecidableEq, Repr

/-- The initial `UploadForm` state: nothing selected, no error, idle. -/
def initialUploadForm : UploadFormState :=
  { file := none, error := none, uploading := false }

/-- The events the form handles: a drag-and-drop carrying a file, a
file-picker selection, the clear button, the submit, and the completion
of an in-flight upload (succeeded, or failed with a message). -/
inductive UploadFormEvent where
  | dropFile (f : FileMeta)
  | chooseFile (f : FileMeta)
  | clearClick
  | submitClick
  | uploadFinished (ok : Bool) (msg : String)
  deriving DecidableEq, Repr

/-- The shared logic of `handleDrop` and `handleChange` (part_002 lines
26-52): a file whose name ends in ".eml" becomes the selection and clears
the error; any other name only sets the error message. -/
def selectFile (s : UploadFormState) (f : FileMeta) : UploadFormState :=
  if strEndsWith f.name ".eml" then { s with file := some f, error := none }
  else { s with error := some "Please upload an .eml file" }

/-- One step of the form: the successor state together with the files
handed to `uploadRFQ` during the step (`handleSubmit`, part_002 lines
54-69, uploads nothing when no file is selected). -/
def uploadFormStep (s : UploadFormState) (e : UploadFormEvent) :
    UploadFormState × List FileMeta :=
  match e with
  | .dropFile f => (selectFile s f, [])
  | .chooseFile f => (selectFile s f, [])
  | .clearClick => ({ s with file := none, error := none }, [])
  | .submitClick =>
    match s.file with
    | none => (s, [])
    | some f => ({ s with uploading := true, error := none }, [f])
  | .uploadFinished ok msg =>
    ({ s with uploading := false,
              error := if ok then s.error else some msg }, [])

/-- A run of the form from a given state, accumulating every file handed
to `uploadRFQ`. -/
def uploadFormRun : List UploadFormEvent → UploadFormState → List FileMeta →
    UploadFormState × List FileMeta
  | [], s, ups => (s, ups)
  | e :: es, s, ups =>
    uploadFormRun es (uploadFormStep s e).1 (ups ++ (uploadFormStep s e).2)

/-- A run of the form from its initial state. -/
def runUploadForm (events : List UploadFormEvent) :
    UploadFormState × List FileMeta :=
  uploadFormRun events initialUploadForm []

/-- Selecting any file preserves the .eml-only invariant on the selected
file. -/
theorem selectFile_eml (s : UploadFormState) (f : FileMeta)
    (hs : ∀ g, s.file = some g → strEndsWith g.name ".eml" = true) :
    ∀ g, (selectFile s f).file = some g → strEndsWith g.name ".eml" = true := by
  intro g hg
  unfold selectFile at hg
  split_ifs at hg with h
  · simp only at hg
    rw [Option.some_inj] at hg
    rw [← hg]
    exact h
  · exact hs g hg

/-- A step preserves the selected-file invariant and uploads only
.eml-named files. -/
theorem uploadFormStep_eml (s : UploadFormState) (e : UploadFormEvent)
    (hs : ∀ f, s.file = some f → strEndsWith f.name ".eml" = true) :
    (∀ f, (uploadFormStep s e).1.file = some f →
      strEndsWith f.name ".eml" = true) ∧
    (∀ f, f ∈ (uploadFormStep s e).2 → strEndsWith f.name ".eml" = true) := by
  cases e with
  | dropFile f =>
    exact ⟨by simpa only [uploadFormStep] using selectFile_eml s f hs,
           by simp [uploadFormStep]⟩
  | chooseFile f =>
    exact ⟨by simpa only [uploadFormStep] using selectFile_eml s f hs,
           by simp [uploadFormStep]⟩
  | clearClick => simp [uploadFormStep]
  | submitClick =>
    cases hf : s.file with
    | none =>
      refine ⟨?_, by simp [uploadFormStep, hf]⟩
      intro f hmem
      simp only [uploadFormStep, hf] at hmem
      exact hs f (hf.trans hmem)
    | some g =>
      refine ⟨?_, ?_⟩
      · simpa [uploadFormStep, hf] using hs
      · intro f hfmem
        simp [uploadFormStep, hf] at hfmem
        rw [hfmem]
        exact hs g hf
  | uploadFinished ok msg => simpa [uploadFormStep] using hs

/-- A whole run preserves the invariant and uploads only .eml-named
files, from any starting state and accumulator already satisfying it. -/
theorem uploadFormRun_eml (events : List UploadFormEvent) :
    ∀ (s : UploadFormState) (ups : List FileMeta),
      (∀ f, s.file = some f → strEndsWith f.name ".eml" = true) →
      (∀ f, f ∈ ups → strEndsWith f.name ".eml" = true) →
      (∀ f, (uploadFormRun events s ups).1.file = some f →
        strEndsWith f.name ".eml" = true) ∧
      (∀ f, f ∈ (uploadFormRun events s ups).2 →
        strEndsWith f.name ".eml" = true) := by
  induction events with
  | nil =>
    intro s ups hs hu
    exact ⟨hs, hu⟩
  | cons e es ih =>
    intro s ups hs hu
    have hstep := uploadFormStep_eml s e hs
    refine ih _ _ hstep.1 ?_
    intro f hf
    rcases List.mem_append.mp hf with h | h
    · exact hu f h
    · exact hstep.2 f h

/-- A well-named file for the concrete runs below. -/
def goodEml : FileMeta := { name := "quote.eml" }

/-- A file whose name does not end in ".eml". -/
def badTxt : FileMeta := { name := "quote.txt" }

/-- Claim C9, counterexample: the claim says a selection event carrying a
non-.eml file leaves the selected file unset, but after a valid .eml was
selected and a .txt is then dropped, the form sets the error yet keeps
the earlier file selected — the selected-file state is not unset. -/
theorem upload_form_unset_counterexample :
    strEndsWith badTxt.name ".eml" = false ∧
    (runUploadForm [UploadFormEvent.chooseFile goodEml,
                    UploadFormEvent.dropFile badTxt]).1.error =
      some "Please upload an .eml file" ∧
    (runUploadForm [UploadFormEvent.chooseFile goodEml,
                    UploadFormEvent.dropFile badTxt]).1.file = some goodEml := by
  refine ⟨?_, ?_, ?_⟩ <;> decide

/-- Claim C9 as amended: in every reachable form state the selected file
is either empty or named *.eml — a selection event carrying any other
name sets the error message and leaves the selected-file state unchanged
(not necessarily unset) — submitting with no selected file performs no
upload, and every file ever handed to `uploadRFQ` is named *.eml. -/
theorem upload_form_eml_invariant :
    ∀ (events : List UploadFormEvent),
      (∀ f, (runUploadForm events).1.file = some f →
        strEndsWith f.name ".eml" = true) ∧
      (∀ f, f ∈ (runUploadForm events).2 →
        strEndsWith f.name ".eml" = true) ∧
      (∀ (s : UploadFormState) (g : FileMeta),
        strEndsWith g.name ".eml" = false →
        (selectFile s g).file = s.file ∧
        (selectFile s g).error = some "Please upload an .eml file") ∧
      (∀ s : UploadFormState, s.file = none →
        uploadFormStep s .submitClick = (s, [])) := by
  intro events
  have hrun := uploadFormRun_eml events initialUploadForm []
    (by intro f hf; simp [initialUploadForm] at hf)
    (by intro f hf; simp at hf)
  refine ⟨hrun.1, hrun.2, ?_, ?_⟩
  · intro s g hg
    unfold selectFile
    rw [hg]
    simp
  · intro s hf
    unfold uploadFormStep
    rw [hf]

/-- Witness for `upload_form_eml_invariant`: choosing quote.eml and
submitting uploads exactly that .eml-named file, and selecting quote.txt
from the initial state leaves no file selected. -/
theorem upload_form_eml_invariant_witness :
    strEndsWith goodEml.name ".eml" = true ∧
    (runUploadForm [UploadFormEvent.chooseFile goodEml,
                    UploadFormEvent.submitClick]).2 = [goodEml] ∧
    (selectFile initialUploadForm badTxt).file = none := by
  have h := upload_form_eml_invariant
    [UploadFormEvent.chooseFile goodEml, UploadFormEvent.submitClick]
  have heq : (runUploadForm [UploadFormEvent.chooseFile goodEml,
      UploadFormEvent.submitClick]).2 = [goodEml] := by decide
  refine ⟨?_, heq, ?_⟩
  · refine h.2.1 goodEml ?_
    rw [heq]
    exact List.mem_singleton_self _
  · have hsel := h.2.2.1 initialUploadForm badTxt (by decide)
    rw [hsel.1]
    rfl

/-- Claim C10: `getDaysUntilExpiry` is the ceiling of (valid_to − now)
over 24 hours, so a valid_to lying within the 24 hours immediately before
now yields 0 rather than a negative count; such a just-expired rate is
coloured urgent red by `getExpiryColor` — not the gray reserved for
negative day counts — and passes the dashboard's expiring-rates filter,
which keeps 0 ≤ days ≤ 7. -/
theorem days_until_expiry_just_expired :
    ∀ (now validTo : Millis),
      getDaysUntilExpiry now validTo = ⌈(validTo - now) / 86400000⌉ ∧
      (now - 86400000 < validTo → validTo ≤ now →
        getDaysUntilExpiry now validTo = 0 ∧
        getExpiryColor (getDaysUntilExpiry now validTo) = "text-red-600" ∧
        getExpiryColor (getDaysUntilExpiry now validTo) ≠ "text-gray-500" ∧
        (∀ (r : Rate) (rates : List Rate), r.valid_to = validTo →
          r ∈ rates → r ∈ dashboardExpiring now rates)) := by
  intro now validTo
  constructor
  · norm_num [getDaysUntilExpiry]
  · intro h1 h2
    have hzero : getDaysUntilExpiry now validTo = 0 := by
      unfold getDaysUntilExpiry
      rw [Int.ceil_eq_zero_iff, Set.mem_Ioc]
      constructor
      · rw [lt_div_iff₀ (by norm_num : (0 : ℚ) < 1000 * 60 * 60 * 24)]
        linarith
      · rw [div_le_iff₀ (by norm_num : (0 : ℚ) < 1000 * 60 * 60 * 24)]
        linarith
    refine ⟨hzero, ?_, ?_, ?_⟩
    · rw [hzero]
      rfl
    · rw [hzero]
      decide
    · intro r rates hr hmem
      unfold dashboardExpiring
      rw [List.mem_filter]
      refine ⟨hmem, ?_⟩
      rw [hr, hzero]
      decide

/-- Witness for `days_until_expiry_just_expired`: a valid_to 400 seconds
before now gives day count 0 and the urgent red colour. -/
theorem days_until_expiry_just_expired_witness :
    (86400000 : ℚ) - 86400000 < 86000000 ∧ (86000000 : ℚ) ≤ 86400000 ∧
    getDaysUntilExpiry 86400000 86000000 = 0 ∧
    getExpiryColor (getDaysUntilExpiry 86400000 86000000) = "text-red-600" := by
  have h := (days_until_expiry_just_expired 86400000 86000000).2
    (by norm_num) (by norm_num)
  exact ⟨by norm_num, by norm_num, h.1, h.2.1⟩

end Creseada
